import Mathlib

/-!
# petesaia.com: the `hello` package

A shallow embedding of `src/hello.go`: the constant `content`, the function
`handler` and the package initialiser `init`, together with the small part of
the Go standard library they call (`fmt.Fprint`, the `http.ResponseWriter`
interface, `http.HandleFunc` and `http.ServeMux` with its path cleaning,
redirects and pattern matching).  Library functions that only shape the text of
a redirect (URL escaping and the like) and `stripHostPort` are parameters, the
structure `Library`; the theorems hold whatever they are.

Go state is passed explicitly.  A Go function that may panic returns an
`Except Panic`; a Go `error` result is an `Option error` (`none` is `nil`).
-/

set_option maxRecDepth 100000

namespace hello

/-! ## Strings and bytes -/

/-- Go `byte`. -/
abbrev Byte := UInt8

/-- The conversion `[]byte(s)`: the UTF-8 bytes of a Go string. -/
def bytes (s : String) : List Byte :=
  s.toList.flatMap String.utf8EncodeChar

/-- Go `error` values; a `nil` error is `none : Option error`. -/
structure error where
  msg : String
deriving DecidableEq, Repr

/-- The value carried by a Go panic. -/
structure Panic where
  msg : String
deriving DecidableEq, Repr

/-! ## The constant `content` (hello.go, lines 12-28)

A raw string literal: everything between the two back quotes, so it starts with
the line break that follows the opening quote and ends with the line break that
precedes the closing one. -/

/-- The constant `content`. -/
def content : String :=
  "\n" ++
  "<!doctype html>\n" ++
  "<html lang=\"en\">\n" ++
  "<head>\n" ++
  "<meta charset=\"utf-8\">\n" ++
  "<title>petesaia.com</title>\n" ++
  "</head>\n" ++
  "<body>\n" ++
  "<ul>\n" ++
  "<li><a target=\"_blank\" href=\"https://twitter.com/petesaia\">connect</a></li>\n" ++
  "<li><a target=\"_blank\" href=\"https://medium.com/@PS_/image-processing-go-microservice-df423d1b8ddd\">write</a></li>\n" ++
  "<li><a target=\"_blank\" href=\"https://github.com/LevInteractive\">work</a></li>\n" ++
  "<li><a target=\"_blank\" href=\"https://www.flickr.com/photos/petesaia\">shoot</a></li>\n" ++
  "</ul>\n" ++
  "</body>\n" ++
  "</html>\n"

/-! ## `fmt.Fprint` -/

/-- The operands of a print call (`...any`), as far as this package and the
library code it reaches need them: strings and integers. -/
inductive Operand where
  | str (s : String)
  | int (i : Int)
deriving DecidableEq, Repr

/-- Whether the operand's kind is `reflect.String`. -/
def Operand.isString : Operand → Bool
  | .str _ => true
  | .int _ => false

/-- The bytes `printArg(arg, 'v')` appends: a string as it is, an integer in
decimal. -/
def printArg : Operand → List Byte
  | .str s => bytes s
  | .int i => bytes (toString i)

/-- The loop of `(*pp).doPrint`: a space goes between two operands when
neither is a string. -/
def doPrintLoop : List Operand → Nat → Bool → List Byte → List Byte
  | [], _, _, buf => buf
  | arg :: rest, argNum, prevString, buf =>
    let isString := arg.isString
    let buf := if 0 < argNum && !isString && !prevString then buf ++ [32] else buf
    doPrintLoop rest (argNum + 1) isString (buf ++ printArg arg)

/-- The buffer `(*pp).doPrint` builds. -/
def doPrint (a : List Operand) : List Byte :=
  doPrintLoop a 0 false []

/-- The loop of `(*pp).doPrintln`: a space between all operands. -/
def doPrintlnLoop : List Operand → Nat → List Byte → List Byte
  | [], _, buf => buf
  | arg :: rest, argNum, buf =>
    let buf := if 0 < argNum then buf ++ [32] else buf
    doPrintlnLoop rest (argNum + 1) (buf ++ printArg arg)

/-- The buffer `(*pp).doPrintln` builds: the operands and a final line break. -/
def doPrintln (a : List Operand) : List Byte :=
  doPrintlnLoop a 0 [] ++ [10]

/-! ## `http.ResponseWriter`, requests and the process state -/

/-- Go `http.Header`: `map[string][]string`. -/
abbrev Header := List (String × List String)

/-- The method `Header.Del`. -/
def Header.Del (h : Header) (key : String) : Header :=
  h.filter (fun kv => kv.1 != key)

/-- The method `Header.Set`: the key's values are replaced by the one value. -/
def Header.Set (h : Header) (key value : String) : Header :=
  Header.Del h key ++ [(key, [value])]

/-- The interface `http.ResponseWriter` over a writer state `σ`.  `Header()`
returns a map the caller may change in place; `setHeader` is that change. -/
structure ResponseWriter (σ : Type) where
  Header : σ → hello.Header
  setHeader : σ → hello.Header → σ
  Write : σ → List Byte → σ × Nat × Option error
  WriteHeader : σ → Int → σ

/-- The fields of `*http.Request` a handler can read; `Path` and `RawQuery`
are the fields of `r.URL`. -/
structure Request where
  Method : String
  ProtoMajor : Nat
  ProtoMinor : Nat
  RequestURI : String
  Host : String
  Path : String
  RawQuery : String
  Header : hello.Header
  Body : List Byte
deriving DecidableEq, Repr

/-- Handler values: `http.HandlerFunc(handler)` for the one function of this
package, and the library's `http.NotFoundHandler()` and
`http.RedirectHandler(url, code)`. -/
inductive Handler where
  | HandlerFunc_handler
  | NotFoundHandler
  | RedirectHandler (url : String) (code : Int)
deriving DecidableEq, Repr

/-- An entry of the routing table, `http.muxEntry`. -/
structure muxEntry where
  h : Handler
  pattern : String
deriving DecidableEq, Repr

/-- The routing table `http.ServeMux`: the map `m` from pattern to entry, the
slice `es` of the entries whose pattern ends in a slash, longest first, and
whether any pattern names a host. -/
structure ServeMux where
  m : List (String × muxEntry)
  es : List muxEntry
  hosts : Bool
deriving DecidableEq, Repr

/-- The process-wide state: `http.DefaultServeMux` and what the process has
logged. -/
structure Process where
  DefaultServeMux : ServeMux
  logOutput : List String
deriving DecidableEq, Repr

/-- Everything a handler invocation can reach: the process-wide state, the
state of the response writer `w` and the request `r` points to. -/
structure World (σ : Type) extends Process where
  w : σ
  r : Request

/-- `fmt.Fprint(w, a...)`: format into a buffer, hand the buffer to `w.Write`
in one call and return what that call returned. -/
def Fprint {σ : Type} (W : ResponseWriter σ) (s : World σ) (a : List Operand) :
    World σ × Nat × Option error :=
  let buf := doPrint a
  let res := W.Write s.w buf
  ({ s with w := res.1 }, res.2.1, res.2.2)

/-- `fmt.Fprintln(w, a...)`. -/
def Fprintln {σ : Type} (W : ResponseWriter σ) (s : World σ) (a : List Operand) :
    World σ × Nat × Option error :=
  let buf := doPrintln a
  let res := W.Write s.w buf
  ({ s with w := res.1 }, res.2.1, res.2.2)

/-! ## `handler` (hello.go, lines 30-32) -/

/-- The function `handler`: `fmt.Fprint(w, content)`, both results dropped. -/
def handler {σ : Type} (W : ResponseWriter σ) (s : World σ) : Except Panic (World σ) :=
  let res := Fprint W s [Operand.str content]
  Except.ok res.1

/-! ## Response writers -/

/-- A recording response writer: the header map the handler sees, the status
and the body bytes written so far.  The status is committed by the first
`WriteHeader`; a `Write` that finds none committed commits 200 first, as the
`http.ResponseWriter` contract says. -/
structure recorder where
  HeaderMap : Header
  wroteHeader : Bool
  Code : Int
  Body : List Byte
deriving DecidableEq, Repr

/-- A recorder nothing has been written to. -/
def recorder.fresh : recorder :=
  { HeaderMap := [], wroteHeader := false, Code := 0, Body := [] }

/-- `WriteHeader` of the recorder: the first status code stays. -/
def recorder.WriteHeader (rw : recorder) (code : Int) : recorder :=
  if rw.wroteHeader then rw else { rw with Code := code, wroteHeader := true }

/-- `Write` of the recorder: commit 200 when no status is committed, append the
bytes to the body, report all of them written. -/
def recorder.Write (rw : recorder) (buf : List Byte) : recorder × Nat × Option error :=
  let rw := if rw.wroteHeader then rw else recorder.WriteHeader rw 200
  ({ rw with Body := rw.Body ++ buf }, buf.length, none)

/-- The recorder as an `http.ResponseWriter`. -/
def recorderWriter : ResponseWriter recorder where
  Header := fun rw => rw.HeaderMap
  setHeader := fun rw h => { rw with HeaderMap := h }
  Write := recorder.Write
  WriteHeader := recorder.WriteHeader

/-- A call made on a response writer. -/
inductive Call where
  | Header
  | setHeader (h : hello.Header)
  | Write (buf : List Byte)
  | WriteHeader (code : Int)
deriving DecidableEq, Repr

/-- Any response writer with a journal of the calls made on it: each method
does what the wrapped writer does and adds the call to the journal. -/
def spy {σ : Type} (W : ResponseWriter σ) : ResponseWriter (σ × List Call) where
  Header := fun s => W.Header s.1
  setHeader := fun s h => (W.setHeader s.1 h, s.2 ++ [Call.setHeader h])
  Write := fun s buf =>
    let res := W.Write s.1 buf
    ((res.1, s.2 ++ [Call.Write buf]), res.2.1, res.2.2)
  WriteHeader := fun s code => (W.WriteHeader s.1 code, s.2 ++ [Call.WriteHeader code])

/-- A response writer on a connection that breaks: of all the bytes it is ever
given it takes the first `room`, and a `Write` it cannot take whole returns the
number of bytes taken and an error. -/
structure brokenConn where
  room : Nat
  wroteHeader : Bool
  Code : Int
  Body : List Byte
deriving DecidableEq, Repr

/-- `Write` of the breaking connection. -/
def brokenConn.Write (c : brokenConn) (buf : List Byte) : brokenConn × Nat × Option error :=
  let c := if c.wroteHeader then c else { c with Code := 200, wroteHeader := true }
  if buf.length ≤ c.room then
    ({ c with Body := c.Body ++ buf, room := c.room - buf.length }, buf.length, none)
  else
    ({ c with Body := c.Body ++ buf.take c.room, room := 0 }, c.room,
      some { msg := "write: broken pipe" })

/-- The breaking connection as an `http.ResponseWriter`. -/
def brokenConnWriter : ResponseWriter brokenConn where
  Header := fun _ => []
  setHeader := fun c _ => c
  Write := brokenConn.Write
  WriteHeader := fun c code =>
    if c.wroteHeader then c else { c with Code := code, wroteHeader := true }

/-! ## `http.ServeMux` and `init` (hello.go, lines 8-10) -/

/-- Go `len(s)` of a string: its number of bytes. -/
def len (s : String) : Nat := (bytes s).length

/-- Go `strings.HasPrefix`. -/
def HasPrefix (s pre : String) : Bool :=
  (bytes pre).isPrefixOf (bytes s)

/-- The library's `appendSorted`: the entry goes before the first entry with a
shorter pattern, so `es` stays sorted from the longest pattern to the shortest. -/
def appendSorted (es : List muxEntry) (e : muxEntry) : List muxEntry :=
  es.takeWhile (fun x => !decide (len x.pattern < len e.pattern)) ++
    e :: es.dropWhile (fun x => !decide (len x.pattern < len e.pattern))

/-- `(*ServeMux).Handle`: register the handler for the pattern.  It panics on an
empty pattern and on a pattern registered before.  (A handler value of this
model is never nil.) -/
def ServeMux.Handle (mux : ServeMux) (pattern : String) (h : Handler) :
    Except Panic ServeMux :=
  if pattern = "" then
    Except.error { msg := "http: invalid pattern" }
  else if (mux.m.lookup pattern).isSome then
    Except.error { msg := "http: multiple registrations for " ++ pattern }
  else
    let e : muxEntry := { h := h, pattern := pattern }
    let m := mux.m ++ [(pattern, e)]
    let es := if (bytes pattern).getLast? = some 47 then appendSorted mux.es e else mux.es
    let hosts := if (bytes pattern).head? ≠ some 47 then true else mux.hosts
    Except.ok { m := m, es := es, hosts := hosts }

/-- `http.HandleFunc` for the function `handler`: `DefaultServeMux.Handle` with
`http.HandlerFunc(handler)`. -/
def HandleFunc (p : Process) (pattern : String) (h : Handler) : Except Panic Process :=
  match p.DefaultServeMux.Handle pattern h with
  | Except.ok mux => Except.ok { p with DefaultServeMux := mux }
  | Except.error e => Except.error e

/-- The package initialiser `init`: `http.HandleFunc("/", handler)`. -/
def init (p : Process) : Except Panic Process :=
  HandleFunc p "/" Handler.HandlerFunc_handler

/-- The process state before any package initialiser has run: an empty
`DefaultServeMux`, nothing logged. -/
def Process.start : Process :=
  { DefaultServeMux := { m := [], es := [], hosts := false }, logOutput := [] }

/-- `(*ServeMux).match`: an exact match first, then the first (so the longest)
pattern ending in a slash that is a prefix of the path. -/
def ServeMux.match (mux : ServeMux) (path : String) : Option muxEntry :=
  match mux.m.lookup path with
  | some v => some v
  | none => mux.es.find? (fun e => HasPrefix path e.pattern)

/-- `(*ServeMux).handler(host, path)`: host-specific patterns first, then the
generic ones, and `NotFoundHandler()` with the empty pattern when nothing
matches. -/
def ServeMux.handler (mux : ServeMux) (host path : String) : Handler × String :=
  let r := if mux.hosts then mux.match (host ++ path) else none
  let r := if r.isNone then mux.match path else r
  match r with
  | some e => (e.h, e.pattern)
  | none => (Handler.NotFoundHandler, "")

/-- `http.Error(w, error, code)`: two headers, the status, the message and a
line break. -/
def Error {σ : Type} (W : ResponseWriter σ) (s : World σ) (err : String) (code : Int) :
    World σ :=
  let h := W.Header s.w
  let h := Header.Set h "Content-Type" "text/plain; charset=utf-8"
  let h := Header.Set h "X-Content-Type-Options" "nosniff"
  let s := { s with w := W.setHeader s.w h }
  let s := { s with w := W.WriteHeader s.w code }
  (Fprintln W s [Operand.str err]).1

/-- `http.NotFound(w, r)`. -/
def NotFound {σ : Type} (W : ResponseWriter σ) (s : World σ) : World σ :=
  Error W s "404 page not found" 404

/-! ### Path cleaning (`path.Clean`, `cleanPath`)

The library compares bytes with the slash and the dot.  Both are ASCII, and no
byte of a longer UTF-8 sequence is ASCII, so the model compares characters. -/

/-- The backward scan of `path.Clean` at a `..` element, from the index `w`
(the write index after its first decrement): back to `dotdot` or to a slash. -/
def backtrack (out : List Char) (dotdot : Nat) : Nat → Nat
  | 0 => 0
  | w + 1 =>
    if dotdot < w + 1 && out.get? (w + 1) != some '/' then backtrack out dotdot w
    else w + 1

/-- The loop of `path.Clean` over the bytes not yet read, with the output
written so far and the index `dotdot` a `..` must not go behind.  The first
argument bounds the number of rounds; each round reads at least one byte. -/
def cleanLoop (rooted : Bool) : Nat → List Char → List Char → Nat → List Char
  | 0, _, out, _ => out
  | _ + 1, [], out, _ => out
  | fuel + 1, c :: tl, out, dotdot =>
    if c = '/' then
      cleanLoop rooted fuel tl out dotdot
    else if c = '.' && (tl.isEmpty || tl.head? = some '/') then
      cleanLoop rooted fuel tl out dotdot
    else if c = '.' && tl.head? = some '.' &&
        ((tl.drop 1).isEmpty || (tl.drop 1).head? = some '/') then
      if dotdot < out.length then
        cleanLoop rooted fuel (tl.drop 1)
          (out.take (backtrack out dotdot (out.length - 1))) dotdot
      else if !rooted then
        let out := if 0 < out.length then out ++ ['/'] else out
        let out := out ++ ['.', '.']
        cleanLoop rooted fuel (tl.drop 1) out out.length
      else
        cleanLoop rooted fuel (tl.drop 1) out dotdot
    else
      let out :=
        if (rooted && out.length != 1) || (!rooted && out.length != 0) then out ++ ['/']
        else out
      cleanLoop rooted fuel ((c :: tl).dropWhile (fun x => x != '/'))
        (out ++ (c :: tl).takeWhile (fun x => x != '/')) dotdot

/-- Go `path.Clean`. -/
def Clean (path : String) : String :=
  if path = "" then "."
  else
    let cs := path.toList
    let rooted : Bool := cs.head? = some '/'
    let out := cleanLoop rooted (cs.length + 1) (if rooted then cs.drop 1 else cs)
      (if rooted then ['/'] else []) (if rooted then 1 else 0)
    if out.isEmpty then "." else String.mk out

/-- The library's `cleanPath`: the canonical path for `p`, without `.` and `..`
elements and doubled slashes, rooted, a final slash kept. -/
def cleanPath (p : String) : String :=
  if p = "" then "/"
  else
    let p := if p.toList.head? ≠ some '/' then "/" ++ p else p
    let np := Clean p
    if p.toList.getLast? = some '/' && np != "/" then
      if len p = len np + 1 && HasPrefix p np then p else np ++ "/"
    else np

/-! ### Serving -/

/-- Library functions the model does not spell out.  `stripHostPort` is the
library's function of that name; `urlString path rawQuery` is
`(&url.URL{Path: path, RawQuery: rawQuery}).String()`; `absoluteURL oldpath url`
is what the first block of `http.Redirect` makes of `url` for a request with the
path `oldpath`; `hexEscapeNonASCII` and `htmlEscape` are the library's. -/
structure Library where
  stripHostPort : String → String
  urlString : String → String → String
  absoluteURL : String → String → String
  hexEscapeNonASCII : String → String
  htmlEscape : String → String

/-- `http.StatusText`, for the status codes the model reaches. -/
def StatusText (code : Int) : String :=
  if code = 200 then "OK"
  else if code = 301 then "Moved Permanently"
  else if code = 400 then "Bad Request"
  else if code = 404 then "Not Found"
  else ""

/-- `http.Redirect(w, r, url, code)`: the `Location` header, for `GET` and `HEAD`
a content type unless one is set, the status, and for `GET` a short HTML body. -/
def Redirect {σ : Type} (L : Library) (W : ResponseWriter σ) (s : World σ) (url : String)
    (code : Int) : World σ :=
  let url := L.absoluteURL s.r.Path url
  let h := W.Header s.w
  let hadCT := (h.lookup "Content-Type").isSome
  let h := Header.Set h "Location" (L.hexEscapeNonASCII url)
  let h :=
    if !hadCT && (s.r.Method = "GET" || s.r.Method = "HEAD") then
      Header.Set h "Content-Type" "text/html; charset=utf-8"
    else h
  let s := { s with w := W.setHeader s.w h }
  let s := { s with w := W.WriteHeader s.w code }
  if !hadCT && s.r.Method = "GET" then
    let body := "<a href=\"" ++ L.htmlEscape url ++ "\">" ++ StatusText code ++ "</a>.\n"
    (Fprintln W s [Operand.str body]).1
  else s

/-- The method `ServeHTTP` of a handler value. -/
def Handler.ServeHTTP {σ : Type} (L : Library) (W : ResponseWriter σ) :
    Handler → World σ → Except Panic (World σ)
  | Handler.HandlerFunc_handler, s => handler W s
  | Handler.NotFoundHandler, s => Except.ok (NotFound W s)
  | Handler.RedirectHandler url code, s => Except.ok (Redirect L W s url code)

/-- `(*ServeMux).shouldRedirectRLocked(host, path)`: whether `path` is not
registered itself while `path` with a slash added is. -/
def ServeMux.shouldRedirectRLocked (mux : ServeMux) (host path : String) : Bool :=
  let p := [path, host ++ path]
  if p.any (fun c => (mux.m.lookup c).isSome) then false
  else if len path = 0 then false
  else if p.any (fun c => (mux.m.lookup (c ++ "/")).isSome) then
    (bytes path).getLast? != some 47
  else false

/-- `(*ServeMux).redirectToPathSlash(host, path, u)`: the path of the URL to
redirect to, when `shouldRedirectRLocked` says so. -/
def ServeMux.redirectToPathSlash (mux : ServeMux) (host path : String) : Option String :=
  if mux.shouldRedirectRLocked host path then some (path ++ "/") else none

/-- `(*ServeMux).Handler(r)`: the handler for the request and the pattern it is
registered under.  A `CONNECT` request is looked up as it is.  Any other request
is looked up under its host without the port and its cleaned path, and is
answered with a redirect to the cleaned path when its path is not that. -/
def ServeMux.Handler (L : Library) (mux : ServeMux) (r : Request) : Handler × String :=
  if r.Method = "CONNECT" then
    match mux.redirectToPathSlash r.Host r.Path with
    | some upath => (Handler.RedirectHandler (L.urlString upath r.RawQuery) 301, upath)
    | none => mux.handler r.Host r.Path
  else
    let host := L.stripHostPort r.Host
    let path := cleanPath r.Path
    match mux.redirectToPathSlash host path with
    | some upath => (Handler.RedirectHandler (L.urlString upath r.RawQuery) 301, upath)
    | none =>
      if path ≠ r.Path then
        (Handler.RedirectHandler (L.urlString path r.RawQuery) 301, (mux.handler host path).2)
      else mux.handler host r.Path

/-- `(*http.Request).ProtoAtLeast`. -/
def Request.ProtoAtLeast (r : Request) (major minor : Nat) : Bool :=
  major < r.ProtoMajor || (r.ProtoMajor = major && minor ≤ r.ProtoMinor)

/-- `(*ServeMux).ServeHTTP`: the request target `*` gets status 400; any other
request is served by the handler `mux.Handler(r)` selects. -/
def ServeMux.ServeHTTP {σ : Type} (L : Library) (W : ResponseWriter σ) (mux : ServeMux)
    (s : World σ) : Except Panic (World σ) :=
  if s.r.RequestURI = "*" then
    let s :=
      if s.r.ProtoAtLeast 1 1 then
        { s with w := W.setHeader s.w (Header.Set (W.Header s.w) "Connection" "close") }
      else s
    Except.ok { s with w := W.WriteHeader s.w 400 }
  else
    Handler.ServeHTTP L W (mux.Handler L s.r).1 s

/-- The server answers one request: a response writer in the state `w0` and the
request go to `DefaultServeMux`. -/
def serve {σ : Type} (L : Library) (W : ResponseWriter σ) (w0 : σ) (p : Process)
    (r : Request) : Except Panic (World σ) :=
  ServeMux.ServeHTTP L W p.DefaultServeMux { toProcess := p, w := w0, r := r }

/-- One invocation of `handler` with a response writer in the state `w0`. -/
def invoke {σ : Type} (W : ResponseWriter σ) (w0 : σ) (p : Process) (r : Request) :
    Except Panic (World σ) :=
  handler W { toProcess := p, w := w0, r := r }

/-- The process state after `handler` has been invoked for each request of the
list in turn, every time with a writer in the state `w0`; `none` if an
invocation panicked. -/
def invokeAll {σ : Type} (W : ResponseWriter σ) (w0 : σ) : Process → List Request → Option Process
  | p, [] => some p
  | p, r :: rest =>
    match invoke W w0 p r with
    | Except.ok s => invokeAll W w0 s.toProcess rest
    | Except.error _ => none

/-- The responses to the requests of a list, each invocation of `handler`
starting from the process state the one before left; `none` if an invocation
panicked. -/
def responses {σ : Type} (W : ResponseWriter σ) (w0 : σ) : Process → List Request → Option (List σ)
  | _, [] => some []
  | p, r :: rest =>
    match invoke W w0 p r with
    | Except.ok s => (responses W w0 s.toProcess rest).map (fun l => s.w :: l)
    | Except.error _ => none

/-! ## Content type sniffing (`http.DetectContentType`) -/

/-- The number of bytes the sniffing looks at. -/
def sniffLen : Nat := 512

/-- The library's `isWS`: tab, line feed, form feed, carriage return, space. -/
def isWS (b : Byte) : Bool :=
  b = 9 || b = 10 || b = 12 || b = 13 || b = 32

/-- The library's `isTT`, the tag-terminating bytes: space and `>`. -/
def isTT (b : Byte) : Bool :=
  b = 32 || b = 62

/-- The index of the first byte of `data` that is not whitespace, counted from
`i`. -/
def firstNonWS : List Byte → Nat → Nat
  | [], i => i
  | b :: rest, i => if isWS b then firstNonWS rest (i + 1) else i

/-- The loop of `htmlSig.match`: each byte of the signature against the data
byte at its place, the data byte with bit `0x20` cleared where the signature
has an upper-case letter. -/
def htmlSigLoop : List Byte → List Byte → Bool
  | [], _ => true
  | _ :: _, [] => false
  | b :: h, db :: data =>
    let db := if 65 ≤ b && b ≤ 90 then db &&& 223 else db
    if b != db then false else htmlSigLoop h data

/-- `htmlSig.match(data, firstNonWS)`: the content type, or the empty string
when the signature does not match. -/
def htmlSig.match (h : List Byte) (data : List Byte) (firstNonWS : Nat) : String :=
  let data := data.drop firstNonWS
  if data.length < h.length + 1 then ""
  else if !htmlSigLoop h data then ""
  else if !(match data.get? h.length with
            | some b => isTT b
            | none => false) then ""
  else "text/html; charset=utf-8"

/-- The first signature of the library's table `sniffSignatures`. -/
def doctypeSig : List Byte := bytes "<!DOCTYPE HTML"

/-- `http.DetectContentType(data)`.  The table of signatures is the doctype
signature followed by `others`, the `match` methods of the signatures after it;
the first signature that matches decides. -/
def DetectContentType (others : List (List Byte → Nat → String)) (data : List Byte) : String :=
  let data := if sniffLen < data.length then data.take sniffLen else data
  let i := firstNonWS data 0
  let sigs := htmlSig.match doctypeSig :: others
  match (sigs.map (fun sig => sig data i)).find? (fun ct => ct != "") with
  | some ct => ct
  | none => "application/octet-stream"

/-- Like `invokeAll`, for requests that come in through the server: the process
state after `serve` has answered each request of the list in turn. -/
def serveAll {σ : Type} (L : Library) (W : ResponseWriter σ) (w0 : σ) :
    Process → List Request → Option Process
  | p, [] => some p
  | p, r :: rest =>
    match serve L W w0 p r with
    | Except.ok s => serveAll L W w0 s.toProcess rest
    | Except.error _ => none

/-! ## Sample requests -/

/-- The request `GET /`. -/
def getRoot : Request :=
  { Method := "GET", ProtoMajor := 1, ProtoMinor := 1, RequestURI := "/",
    Host := "petesaia.com", Path := "/", RawQuery := "", Header := [], Body := [] }

/-- The request `POST /` with a body. -/
def postRoot : Request :=
  { Method := "POST", ProtoMajor := 1, ProtoMinor := 1, RequestURI := "/?a=1",
    Host := "petesaia.com", Path := "/", RawQuery := "a=1",
    Header := [("Content-Type", ["text/plain"])], Body := bytes "arbitrary body" }

/-- The request `GET /nonexistent-path`. -/
def getNonexistent : Request :=
  { Method := "GET", ProtoMajor := 1, ProtoMinor := 1, RequestURI := "/nonexistent-path",
    Host := "petesaia.com", Path := "/nonexistent-path", RawQuery := "", Header := [],
    Body := [] }

/-- The request `GET //nonexistent-path`, a path with a doubled slash. -/
def getDoubleSlash : Request :=
  { Method := "GET", ProtoMajor := 1, ProtoMinor := 1, RequestURI := "//nonexistent-path",
    Host := "petesaia.com", Path := "//nonexistent-path", RawQuery := "", Header := [],
    Body := [] }

/-- The parameters of `Library` as the library has them on a host without a
port and on URLs that need no escaping: the host and the URL text come back
unchanged, and a query goes behind a question mark. -/
def plainLibrary : Library :=
  { stripHostPort := fun h => h,
    urlString := fun path rawQuery => if rawQuery = "" then path else path ++ "?" ++ rawQuery,
    absoluteURL := fun _ url => url,
    hexEscapeNonASCII := fun u => u,
    htmlEscape := fun u => u }

/-- The routing table with the one entry that binds the pattern `/` to
`handler`. -/
def rootOnly : ServeMux :=
  { m := [("/", { h := Handler.HandlerFunc_handler, pattern := "/" })],
    es := [{ h := Handler.HandlerFunc_handler, pattern := "/" }],
    hosts := false }

/-- A connection that breaks after five bytes. -/
def fiveBytes : brokenConn :=
  { room := 5, wroteHeader := false, Code := 0, Body := [] }

/-! ## Lemmas -/

theorem doPrint_str (s : String) : doPrint [Operand.str s] = bytes s := by
  simp [doPrint, doPrintLoop, printArg]

theorem handler_eq {σ : Type} (W : ResponseWriter σ) (s : World σ) :
    handler W s = Except.ok { s with w := (W.Write s.w (bytes content)).1 } := by
  simp [handler, Fprint, doPrint_str]

theorem invoke_eq {σ : Type} (W : ResponseWriter σ) (w0 : σ) (p : Process) (r : Request) :
    invoke W w0 p r
      = Except.ok { toProcess := p, w := (W.Write w0 (bytes content)).1, r := r } := by
  simp [invoke, handler_eq]

theorem invokeAll_eq {σ : Type} (W : ResponseWriter σ) (w0 : σ) (p : Process)
    (rs : List Request) : invokeAll W w0 p rs = some p := by
  induction rs with
  | nil => rfl
  | cons r rest ih => simp [invokeAll, invoke_eq, ih]

theorem responses_eq {σ : Type} (W : ResponseWriter σ) (w0 : σ) (p : Process)
    (rs : List Request) :
    responses W w0 p rs
      = some (List.replicate rs.length (W.Write w0 (bytes content)).1) := by
  induction rs with
  | nil => rfl
  | cons r rest ih => simp [responses, invoke_eq, ih, List.replicate_succ]

theorem init_start :
    init Process.start = Except.ok { DefaultServeMux := rootOnly, logOutput := [] } := by
  rfl

theorem rootOnly_handler (host path : String) (hpath : HasPrefix path "/" = true) :
    rootOnly.handler host path = (Handler.HandlerFunc_handler, "/") := by
  cases hb : (path == "/") <;>
    simp [ServeMux.handler, ServeMux.match, rootOnly, List.lookup, hb, hpath]

theorem append_slash_ne (c : String) (hc : c ≠ "") : c ++ "/" ≠ "/" := by
  intro h
  apply hc
  have hd := congrArg String.data h
  simp only [String.data_append] at hd
  have hnil : c.data = [] := by simpa using hd
  exact String.ext hnil

theorem rootOnly_shouldRedirect (host path : String) :
    rootOnly.shouldRedirectRLocked host path = false := by
  unfold ServeMux.shouldRedirectRLocked
  by_cases h0 : len path = 0
  · simp [h0]
  · have hp : path ≠ "" := fun h => h0 (by rw [h]; rfl)
    have hhp : host ++ path ≠ "" := by
      intro h
      apply hp
      have hd := congrArg String.data h
      simp only [String.data_append] at hd
      have hnil : path.data = [] := by
        have h2 := List.append_eq_nil.mp hd
        exact h2.2
      exact String.ext hnil
    have h1 : (path ++ "/" == "/") = false :=
      beq_eq_false_iff_ne.mpr (append_slash_ne path hp)
    have h2 : (host ++ path ++ "/" == "/") = false :=
      beq_eq_false_iff_ne.mpr (append_slash_ne (host ++ path) hhp)
    simp [rootOnly, List.lookup, h0, h1, h2]

theorem backtrack_pos (out : List Char) (w : Nat) (hw : 1 ≤ w) :
    1 ≤ backtrack out 1 w := by
  induction w with
  | zero => omega
  | succ w ih =>
    unfold backtrack
    split
    · next h =>
      have h1 : 1 ≤ w := by
        simp only [Bool.and_eq_true, decide_eq_true_eq] at h
        omega
      exact ih h1
    · omega

theorem cleanLoop_rooted (fuel : Nat) (rest o : List Char) :
    ∃ o', cleanLoop true fuel rest ('/' :: o) 1 = '/' :: o' := by
  induction fuel generalizing rest o with
  | zero => exact ⟨o, by cases rest <;> rfl⟩
  | succ fuel ih =>
    cases rest with
    | nil => exact ⟨o, rfl⟩
    | cons c tl =>
      unfold cleanLoop
      split
      · exact ih tl o
      · split
        · exact ih tl o
        · split
          · split
            · next hlen =>
              have hk := backtrack_pos ('/' :: o) (('/' :: o).length - 1)
                (by simp only [List.length_cons] at hlen ⊢; omega)
              obtain ⟨k, hk'⟩ : ∃ k, backtrack ('/' :: o) 1 (('/' :: o).length - 1) = k + 1 :=
                ⟨backtrack ('/' :: o) 1 (('/' :: o).length - 1) - 1, by omega⟩
              rw [hk', List.take_succ_cons]
              exact ih _ _
            · simp only [Bool.not_true, Bool.false_eq_true, if_false]
              exact ih _ _
          · simp only [Bool.not_true, Bool.false_and, Bool.or_false, Bool.true_and]
            split
            · simp only [List.cons_append]
              exact ih _ _
            · simp only [List.cons_append]
              exact ih _ _

theorem Clean_rooted (p : String) (h : p.toList.head? = some '/') :
    ∃ o, Clean p = String.mk ('/' :: o) := by
  have hne : p ≠ "" := by
    intro h0
    rw [h0] at h
    exact absurd h (by decide)
  obtain ⟨o, ho⟩ := cleanLoop_rooted (p.toList.length + 1) (p.toList.drop 1) []
  refine ⟨o, ?_⟩
  unfold Clean
  simp only [hne, if_false, h, decide_True, if_true, ho]
  rfl

theorem mk_of_head (p : String) (h : p.toList.head? = some '/') :
    ∃ o, p = String.mk ('/' :: o) := by
  cases p with
  | mk cs =>
    cases cs with
    | nil => exact absurd h (by simp)
    | cons c tl =>
      have hc : c = '/' := by simpa using h
      exact ⟨tl, by rw [hc]⟩

theorem cleanPath_rooted (p : String) : ∃ o, cleanPath p = String.mk ('/' :: o) := by
  unfold cleanPath
  split
  · exact ⟨[], rfl⟩
  · have hq : ∀ q : String, q.toList.head? = some '/' →
        ∃ o, (if q.toList.getLast? = some '/' && Clean q != "/" then
                if len q = len (Clean q) + 1 && HasPrefix q (Clean q) then q
                else Clean q ++ "/"
              else Clean q) = String.mk ('/' :: o) := by
      intro q hq
      obtain ⟨o, ho⟩ := Clean_rooted q hq
      split
      · split
        · exact mk_of_head q hq
        · exact ⟨o ++ ['/'], by rw [ho]; rfl⟩
      · exact ⟨o, ho⟩
    have hhead :
        (if p.toList.head? ≠ some '/' then "/" ++ p else p).toList.head? = some '/' := by
      by_cases hh : p.toList.head? = some '/'
      · rw [if_neg (not_not.mpr hh)]
        exact hh
      · rw [if_pos hh]
        simp [String.toList, String.data_append]
    exact hq _ hhead

theorem cleanPath_prefix (p : String) (h : cleanPath p = p) : HasPrefix p "/" = true := by
  obtain ⟨o, ho⟩ := cleanPath_rooted p
  rw [h] at ho
  rw [ho]
  have henc : String.utf8EncodeChar '/' = [47] := by decide
  have hb : bytes "/" = [47] := by decide
  simp [HasPrefix, bytes, hb, henc, String.toList, List.isPrefixOf]

theorem rootOnly_Handler (L : Library) (r : Request) (hclean : cleanPath r.Path = r.Path) :
    rootOnly.Handler L r = (Handler.HandlerFunc_handler, "/") := by
  have hpre := cleanPath_prefix r.Path hclean
  unfold ServeMux.Handler
  simp [ServeMux.redirectToPathSlash, rootOnly_shouldRedirect, hclean,
    rootOnly_handler _ _ hpre]

theorem serve_rootOnly {σ : Type} (L : Library) (W : ResponseWriter σ) (w0 : σ) (p : Process)
    (r : Request) (hmux : p.DefaultServeMux = rootOnly) (huri : r.RequestURI ≠ "*")
    (hclean : cleanPath r.Path = r.Path) :
    serve L W w0 p r
      = Except.ok { toProcess := p, w := (W.Write w0 (bytes content)).1, r := r } := by
  simp [serve, ServeMux.ServeHTTP, hmux, huri, rootOnly_Handler L r hclean,
    Handler.ServeHTTP, handler_eq]

theorem cleanPath_nonexistent : cleanPath "/nonexistent-path" = "/nonexistent-path" := by
  decide

theorem cleanPath_doubleSlash : cleanPath "//nonexistent-path" = "/nonexistent-path" := by
  decide

theorem serve_doubleSlash (L : Library) (p : Process) (hmux : p.DefaultServeMux = rootOnly) :
    ∃ s, serve L recorderWriter recorder.fresh p getDoubleSlash = Except.ok s ∧
      s.w.Code = 301 := by
  have hH : rootOnly.Handler L getDoubleSlash
      = (Handler.RedirectHandler (L.urlString "/nonexistent-path" "") 301, "/") := by
    have hpre : HasPrefix "/nonexistent-path" "/" = true := by decide
    have hne : ("/nonexistent-path" : String) ≠ "//nonexistent-path" := by decide
    simp [ServeMux.Handler, ServeMux.redirectToPathSlash, rootOnly_shouldRedirect,
      getDoubleSlash, cleanPath_doubleSlash, rootOnly_handler _ _ hpre, hne]
  have huri : getDoubleSlash.RequestURI ≠ "*" := by decide
  have hs : serve L recorderWriter recorder.fresh p getDoubleSlash
      = Except.ok (Redirect L recorderWriter
          { toProcess := p, w := recorder.fresh, r := getDoubleSlash }
          (L.urlString "/nonexistent-path" "") 301) := by
    simp only [serve, ServeMux.ServeHTTP, hmux, huri, if_false, hH, Handler.ServeHTTP]
  refine ⟨_, hs, ?_⟩
  · simp [Redirect, Fprintln, recorderWriter, recorder.Write, recorder.WriteHeader,
      recorder.fresh, getDoubleSlash]

theorem serve_start_notFound (L : Library) :
    ∃ s, serve L recorderWriter recorder.fresh Process.start getNonexistent = Except.ok s ∧
      s.w.Code = 404 ∧ s.w.Body = bytes "404 page not found\n" := by
  have hH : Process.start.DefaultServeMux.Handler L getNonexistent
      = (Handler.NotFoundHandler, "") := by
    simp [ServeMux.Handler, ServeMux.redirectToPathSlash, ServeMux.shouldRedirectRLocked,
      ServeMux.handler, ServeMux.match, Process.start, getNonexistent,
      cleanPath_nonexistent]
  have huri : getNonexistent.RequestURI ≠ "*" := by decide
  have hbody : doPrintln [Operand.str "404 page not found"]
      = bytes "404 page not found\n" := by decide
  have hs : serve L recorderWriter recorder.fresh Process.start getNonexistent
      = Except.ok (NotFound recorderWriter
          { toProcess := Process.start, w := recorder.fresh, r := getNonexistent }) := by
    simp only [serve, ServeMux.ServeHTTP, huri, if_false, hH, Handler.ServeHTTP]
  refine ⟨_, hs, ?_, ?_⟩
  · simp [NotFound, Error, Fprintln, recorderWriter, recorder.Write, recorder.WriteHeader,
      recorder.fresh]
  · simp [NotFound, Error, Fprintln, recorderWriter, recorder.Write, recorder.WriteHeader,
      recorder.fresh, hbody]

theorem ite_toProcess {σ : Type} (c : Prop) [Decidable c] (a b : World σ) (p : Process)
    (ha : a.toProcess = p) (hb : b.toProcess = p) :
    (if c then a else b).toProcess = p := by
  by_cases h : c <;> simp [h, ha, hb]

theorem ServeHTTP_process {σ : Type} (L : Library) (W : ResponseWriter σ) (h : Handler)
    (s : World σ) :
    ∃ s', Handler.ServeHTTP L W h s = Except.ok s' ∧ s'.toProcess = s.toProcess := by
  cases h with
  | HandlerFunc_handler => exact ⟨_, handler_eq W _, rfl⟩
  | NotFoundHandler => exact ⟨_, rfl, rfl⟩
  | RedirectHandler url code =>
    refine ⟨_, rfl, ?_⟩
    unfold Redirect
    exact ite_toProcess _ _ _ _ rfl rfl

theorem serve_process {σ : Type} (L : Library) (W : ResponseWriter σ) (w0 : σ) (p : Process)
    (r : Request) : ∃ s, serve L W w0 p r = Except.ok s ∧ s.toProcess = p := by
  unfold serve ServeMux.ServeHTTP
  split
  · refine ⟨_, rfl, ?_⟩
    show (World.toProcess (if _ then _ else _)) = p
    exact ite_toProcess _ _ _ _ rfl rfl
  · exact ServeHTTP_process L W _ _

theorem serveAll_eq {σ : Type} (L : Library) (W : ResponseWriter σ) (w0 : σ) (p : Process)
    (rs : List Request) : serveAll L W w0 p rs = some p := by
  induction rs with
  | nil => rfl
  | cons r rest ih =>
    obtain ⟨s, hs, hp⟩ := serve_process L W w0 p r
    simp [serveAll, hs, hp, ih]

theorem recorder_write_fresh (buf : List Byte) :
    (recorder.Write recorder.fresh buf).1
      = { HeaderMap := [], wroteHeader := true, Code := 200, Body := buf } := by
  simp [recorder.Write, recorder.WriteHeader, recorder.fresh]

/-! ## The claims -/

/-- C1: for every request and every process state, `handler` run with a fresh
response writer leaves exactly the bytes of `content` in the response body.
`fmt.Fprint` hands over the bytes of its one string operand as they are, and
`content` begins with a line break followed by `<!doctype html>` and ends with
`</html>` followed by a line break. -/
theorem C1_body_is_content (p : Process) (r : Request) :
    (∃ s, invoke recorderWriter recorder.fresh p r = Except.ok s ∧
      s.w.Body = bytes content) ∧
    doPrint [Operand.str content] = bytes content ∧
    (bytes "\n<!doctype html>\n").isPrefixOf (bytes content) = true ∧
    (bytes "\n</html>\n").isSuffixOf (bytes content) = true := by
  refine ⟨⟨_, invoke_eq _ _ _ _, ?_⟩, doPrint_str _, by decide, by decide⟩
  exact congrArg recorder.Body (recorder_write_fresh _)

/-- C2: `handler` makes no `WriteHeader` call on its response writer, whatever
the request; so on a writer whose status is 200 after a first body write, the
status after `handler` has returned is 200. -/
theorem C2_status_200 {σ : Type} (W : ResponseWriter σ) (status : σ → Int) (w0 : σ)
    (h200 : ∀ buf, status (W.Write w0 buf).1 = 200) (p : Process) (r : Request) :
    ∃ s, invoke (spy W) (w0, []) p r = Except.ok s ∧
      (∀ code, Call.WriteHeader code ∉ s.w.2) ∧ status s.w.1 = 200 := by
  refine ⟨_, invoke_eq _ _ _ _, ?_, h200 _⟩
  intro code
  simp [spy]

/-- The recorder is a writer whose status is 200 after a first body write, and
on it `GET /` ends with status 200. -/
theorem C2_status_200_witness :
    (∀ buf, recorder.Code (recorderWriter.Write recorder.fresh buf).1 = 200) ∧
    ∃ s, invoke (spy recorderWriter) (recorder.fresh, []) Process.start getRoot
        = Except.ok s ∧
      (∀ code, Call.WriteHeader code ∉ s.w.2) ∧ recorder.Code s.w.1 = 200 :=
  ⟨fun buf => congrArg recorder.Code (recorder_write_fresh buf),
   C2_status_200 recorderWriter recorder.Code recorder.fresh
     (fun buf => congrArg recorder.Code (recorder_write_fresh buf)) Process.start getRoot⟩

/-- C3: `handler` does not depend on the request or on what ran before.  After
any two histories of earlier invocations, from any two process states, the
responses to any two requests are the same writer state (on the recorder: status
200 and the bytes of `content`, both times); and `n` invocations with one
request give `n` equal responses. -/
theorem C3_deterministic {σ : Type} (W : ResponseWriter σ) (w0 : σ) (p1 p2 : Process)
    (hist1 hist2 : List Request) (r1 r2 : Request) (n : Nat) :
    (∃ q1 q2 s1 s2, invokeAll W w0 p1 hist1 = some q1 ∧ invokeAll W w0 p2 hist2 = some q2 ∧
      invoke W w0 q1 r1 = Except.ok s1 ∧ invoke W w0 q2 r2 = Except.ok s2 ∧ s1.w = s2.w) ∧
    (∃ q1 q2 s1 s2, invokeAll recorderWriter recorder.fresh p1 hist1 = some q1 ∧
      invokeAll recorderWriter recorder.fresh p2 hist2 = some q2 ∧
      invoke recorderWriter recorder.fresh q1 r1 = Except.ok s1 ∧
      invoke recorderWriter recorder.fresh q2 r2 = Except.ok s2 ∧
      s1.w.Code = 200 ∧ s2.w.Code = 200 ∧
      s1.w.Body = bytes content ∧ s2.w.Body = bytes content) ∧
    responses W w0 p1 (List.replicate n r1)
      = some (List.replicate n (W.Write w0 (bytes content)).1) := by
  refine ⟨⟨p1, p2, _, _, invokeAll_eq _ _ _ _, invokeAll_eq _ _ _ _, invoke_eq _ _ _ _,
      invoke_eq _ _ _ _, rfl⟩,
    ⟨p1, p2, _, _, invokeAll_eq _ _ _ _, invokeAll_eq _ _ _ _, invoke_eq _ _ _ _,
      invoke_eq _ _ _ _, ?_, ?_, ?_, ?_⟩, ?_⟩
  · exact congrArg recorder.Code (recorder_write_fresh _)
  · exact congrArg recorder.Code (recorder_write_fresh _)
  · exact congrArg recorder.Body (recorder_write_fresh _)
  · exact congrArg recorder.Body (recorder_write_fresh _)
  · simpa using responses_eq W w0 p1 (List.replicate n r1)

/-- C4, as stated, fails: whatever the library functions of `Library` are, it
is not so that after `init` the request `GET //nonexistent-path` gets status 200
and the document.  Its path is not its cleaned path `/nonexistent-path`, and the
mux answers with the redirect status 301. -/
theorem C4_double_slash_not_served :
    (¬ ∃ L : Library, ∀ p s, init Process.start = Except.ok p →
      serve L recorderWriter recorder.fresh p getDoubleSlash = Except.ok s →
      s.w.Code = 200 ∧ s.w.Body = bytes content) ∧
    cleanPath getDoubleSlash.Path = "/nonexistent-path" ∧
    ∃ p s, init Process.start = Except.ok p ∧
      serve plainLibrary recorderWriter recorder.fresh p getDoubleSlash = Except.ok s ∧
      s.w.Code = 301 := by
  refine ⟨?_, cleanPath_doubleSlash, ?_⟩
  · rintro ⟨L, hclaim⟩
    obtain ⟨s, hs, hcode⟩ :=
      serve_doubleSlash L { DefaultServeMux := rootOnly, logOutput := [] } rfl
    have h := (hclaim _ s init_start hs).1
    rw [hcode] at h
    exact absurd h (by decide)
  · obtain ⟨s, hs, hcode⟩ :=
      serve_doubleSlash plainLibrary { DefaultServeMux := rootOnly, logOutput := [] } rfl
    exact ⟨_, s, init_start, hs, hcode⟩

/-- C4, amended: `init` registers the one pattern `/`, and the mux dispatches to
`handler` every request whose target is not `*` and whose path is in canonical
form, that is, equal to its cleaned path (`/nonexistent-path` is such a path):
the request gets status 200 and the bytes of `content` as body. -/
theorem C4_catch_all (L : Library) (r : Request) (huri : r.RequestURI ≠ "*")
    (hclean : cleanPath r.Path = r.Path) :
    ∃ p, init Process.start = Except.ok p ∧
      p.DefaultServeMux.m.map Prod.fst = ["/"] ∧
      p.DefaultServeMux.Handler L r = (Handler.HandlerFunc_handler, "/") ∧
      ∃ s, serve L recorderWriter recorder.fresh p r = Except.ok s ∧
        s.w.Code = 200 ∧ s.w.Body = bytes content := by
  refine ⟨_, init_start, rfl, rootOnly_Handler L r hclean,
    _, serve_rootOnly L _ _ _ _ rfl huri hclean, ?_, ?_⟩
  · exact congrArg recorder.Code (recorder_write_fresh _)
  · exact congrArg recorder.Body (recorder_write_fresh _)

/-- The request `GET /nonexistent-path` has a target other than `*` and a path
in canonical form, and it is dispatched to `handler`. -/
theorem C4_catch_all_witness :
    getNonexistent.RequestURI ≠ "*" ∧
    cleanPath getNonexistent.Path = getNonexistent.Path ∧
    ∃ p, init Process.start = Except.ok p ∧
      p.DefaultServeMux.m.map Prod.fst = ["/"] ∧
      p.DefaultServeMux.Handler plainLibrary getNonexistent
        = (Handler.HandlerFunc_handler, "/") ∧
      ∃ s, serve plainLibrary recorderWriter recorder.fresh p getNonexistent = Except.ok s ∧
        s.w.Code = 200 ∧ s.w.Body = bytes content :=
  ⟨by decide, by decide, C4_catch_all plainLibrary getNonexistent (by decide) (by decide)⟩

/-- C5, as stated, fails: whatever the library functions of `Library` are, it
is not so that after `init` the response to `GET /nonexistent-path` has status
404 and a body other than the document; the body is the document. -/
theorem C5_not_404 :
    ¬ ∃ L : Library, ∀ p s, init Process.start = Except.ok p →
      serve L recorderWriter recorder.fresh p getNonexistent = Except.ok s →
      s.w.Code = 404 ∧ s.w.Body ≠ bytes content := by
  rintro ⟨L, hclaim⟩
  have h := hclaim _ _ init_start
    (serve_rootOnly L recorderWriter recorder.fresh _ getNonexistent rfl (by decide)
      (by decide))
  exact h.2 (congrArg recorder.Body (recorder_write_fresh _))

/-- C5, amended: the program binds only the pattern `/`, the mux selects
`handler` and not `NotFoundHandler()` for `GET /nonexistent-path`, and the
response has status 200 and the document as body, the same response `GET /`
gets.  With no pattern bound the same request gets the library's 404. -/
theorem C5_nonexistent_path_served (L : Library) :
    ∃ p s s0 s404, init Process.start = Except.ok p ∧
      (p.DefaultServeMux.Handler L getNonexistent).1 ≠ Handler.NotFoundHandler ∧
      serve L recorderWriter recorder.fresh p getNonexistent = Except.ok s ∧
      s.w.Code = 200 ∧ s.w.Body = bytes content ∧
      serve L recorderWriter recorder.fresh p getRoot = Except.ok s0 ∧ s0.w = s.w ∧
      serve L recorderWriter recorder.fresh Process.start getNonexistent = Except.ok s404 ∧
      s404.w.Code = 404 ∧ s404.w.Body = bytes "404 page not found\n" := by
  obtain ⟨s404, hs404, hcode, hbody⟩ := serve_start_notFound L
  refine ⟨_, _, _, s404, init_start, ?_,
    serve_rootOnly L _ _ _ _ rfl (by decide) (by decide), ?_, ?_,
    serve_rootOnly L _ _ _ _ rfl (by decide) (by decide), rfl, hs404, hcode, hbody⟩
  · rw [show ({ DefaultServeMux := rootOnly, logOutput := [] } : Process).DefaultServeMux
        = rootOnly from rfl, rootOnly_Handler L getNonexistent (by decide)]
    decide
  · exact congrArg recorder.Code (recorder_write_fresh _)
  · exact congrArg recorder.Body (recorder_write_fresh _)

/-- C6: `handler` changes nothing but the response writer, and that by its one
`Write`: for every writer and every state the world after the call is the world
before with the writer state the `Write` of the document leaves.  On the
recorder, from every state: the header map, the request, the routing table and
the log are as before, the body is the body before with the document appended,
and the status is the one committed before or else the 200 the write commits. -/
theorem C6_frame {σ : Type} (W : ResponseWriter σ) (s : World σ) (t : World recorder) :
    handler W s = Except.ok { s with w := (W.Write s.w (bytes content)).1 } ∧
    ∃ t', handler recorderWriter t = Except.ok t' ∧
      t'.w.HeaderMap = t.w.HeaderMap ∧
      t'.r = t.r ∧
      t'.DefaultServeMux = t.DefaultServeMux ∧
      t'.logOutput = t.logOutput ∧
      t'.toProcess = t.toProcess ∧
      t'.w.Body = t.w.Body ++ bytes content ∧
      t'.w.Code = (if t.w.wroteHeader then t.w.Code else 200) := by
  refine ⟨handler_eq W s, _, handler_eq _ t, ?_, rfl, rfl, rfl, rfl, ?_, ?_⟩ <;>
    cases h : t.w.wroteHeader <;>
    simp [recorderWriter, recorder.Write, recorder.WriteHeader, h]

/-- C7: from the empty routing table `init` yields the table with the one
entry that binds the pattern `/` to `handler`; and the table is this one-entry
table after any number of requests, whatever their paths. -/
theorem C7_one_binding {σ : Type} (L : Library) (W : ResponseWriter σ) (w0 : σ)
    (rs : List Request) :
    ∃ p, init Process.start = Except.ok p ∧
      p.DefaultServeMux.m = [("/", { h := Handler.HandlerFunc_handler, pattern := "/" })] ∧
      p.DefaultServeMux.es = [{ h := Handler.HandlerFunc_handler, pattern := "/" }] ∧
      p.DefaultServeMux.m.length = 1 ∧
      (∃ q, serveAll L W w0 p rs = some q ∧ q.DefaultServeMux = p.DefaultServeMux) ∧
      (∃ q, invokeAll W w0 p rs = some q ∧ q.DefaultServeMux = p.DefaultServeMux) :=
  ⟨_, init_start, rfl, rfl, rfl, ⟨_, serveAll_eq L W w0 _ rs, rfl⟩,
    ⟨_, invokeAll_eq W w0 _ rs, rfl⟩⟩

/-- C8: for every request and every writer, the journal of the calls `handler`
makes on its response writer is one `Write` whose payload is all the bytes of
`content`. -/
theorem C8_single_write {σ : Type} (W : ResponseWriter σ) (w0 : σ) (p : Process)
    (r : Request) :
    ∃ s, invoke (spy W) (w0, []) p r = Except.ok s ∧
      s.w.2 = [Call.Write (bytes content)] ∧
      s.w.2.length = 1 :=
  ⟨_, invoke_eq _ _ _ _, rfl, rfl⟩

/-- C9: on every response writer whose `Write` of the document returns an
error, `handler` returns normally; `fmt.Fprint` has returned the count and the
error of that `Write`, and `handler` drops them.  The journal holds that one
`Write` and nothing after it, the writer is in the state the failed `Write` left
(no error response is written), and the process state, its log included, is as
before. -/
theorem C9_write_error_ignored {σ : Type} (W : ResponseWriter σ) (w0 : σ) (p : Process)
    (r : Request) (hfail : (W.Write w0 (bytes content)).2.2 ≠ none) :
    ∃ s e, invoke (spy W) (w0, []) p r = Except.ok s ∧
      (Fprint (spy W) { toProcess := p, w := (w0, []), r := r } [Operand.str content]).2
        = ((W.Write w0 (bytes content)).2.1, some e) ∧
      s.w.2 = [Call.Write (bytes content)] ∧
      s.w.1 = (W.Write w0 (bytes content)).1 ∧
      s.logOutput = p.logOutput ∧
      s.toProcess = p ∧
      s.r = r := by
  obtain ⟨e, he⟩ := Option.ne_none_iff_exists'.mp hfail
  refine ⟨_, e, invoke_eq _ _ _ _, ?_, rfl, rfl, rfl, rfl, rfl⟩
  simp [Fprint, doPrint_str, spy, he]

/-- On a connection that breaks after five bytes the `Write` of the document
fails with an error, and `handler` returns all the same after that one call. -/
theorem C9_write_error_ignored_witness :
    (brokenConnWriter.Write fiveBytes (bytes content)).2.2 ≠ none ∧
    ∃ s e, invoke (spy brokenConnWriter) (fiveBytes, []) Process.start getRoot
        = Except.ok s ∧
      (Fprint (spy brokenConnWriter)
          { toProcess := Process.start, w := (fiveBytes, []), r := getRoot }
          [Operand.str content]).2
        = ((brokenConnWriter.Write fiveBytes (bytes content)).2.1, some e) ∧
      s.w.2 = [Call.Write (bytes content)] ∧
      s.w.1 = (brokenConnWriter.Write fiveBytes (bytes content)).1 ∧
      s.logOutput = Process.start.logOutput ∧
      s.toProcess = Process.start ∧
      s.r = getRoot :=
  ⟨by decide, C9_write_error_ignored brokenConnWriter fiveBytes Process.start getRoot
    (by decide)⟩

/-- C10: `content` is recognised as HTML by the sniffing rule.  Its first byte
is a line break and the first byte that is not whitespace is at index 1; from
there it reads `<!doctype html`, which matches the signature `<!DOCTYPE HTML`
with upper and lower case taken as equal, and the next byte is `>`, a
tag-terminating byte; all of `content` lies in the 512 bytes sniffed.  So
`DetectContentType` answers `text/html; charset=utf-8`, whatever signatures
follow the first in its table, and not `text/plain; charset=utf-8`. -/
theorem C10_sniffed_as_html (others : List (List Byte → Nat → String)) :
    (bytes content).head? = some 10 ∧
    firstNonWS (bytes content) 0 = 1 ∧
    ((bytes content).drop 1).take 14 = bytes "<!doctype html" ∧
    htmlSigLoop doctypeSig ((bytes content).drop 1) = true ∧
    ((bytes content).drop 1).get? 14 = some 62 ∧
    isTT 62 = true ∧
    (bytes content).length ≤ sniffLen ∧
    DetectContentType others (bytes content) = "text/html; charset=utf-8" ∧
    DetectContentType others (bytes content) ≠ "text/plain; charset=utf-8" := by
  have hsig : htmlSig.match doctypeSig
      (if sniffLen < (bytes content).length then (bytes content).take sniffLen
        else bytes content)
      (firstNonWS
        (if sniffLen < (bytes content).length then (bytes content).take sniffLen
          else bytes content) 0) = "text/html; charset=utf-8" := by
    decide
  have hdet : DetectContentType others (bytes content) = "text/html; charset=utf-8" := by
    simp [DetectContentType, hsig]
  refine ⟨by decide, by decide, by decide, by decide, by decide, by decide, by decide,
    hdet, ?_⟩
  rw [hdet]
  decide

end hello
